import Mathlib

/-!
# PolygonOperations: a verification development for `polygon.cpp`

The program reads a batch of polygons, validates it, and delegates the boolean
set operations to the CGAL library.  The embedding below follows `polygon.cpp`
function by function.  Everything the program obtains from CGAL (the
collinearity predicate, `Polygon_2::is_simple`, `intersection`, `difference`
and `join`) is a field of the structure `CGAL`, so every theorem holds for
whatever the library computes.
-/

namespace PolygonOperations

/-! ## Data model -/

/-- A C++ `double`: a finite value (every finite double is a rational number),
one of the two infinities, or a NaN. -/
inductive Double where
  | finite (q : ℚ)
  | posInf
  | negInf
  | nan
  deriving DecidableEq, Repr

namespace Double

/-- The value `std::numeric_limits<double>::infinity()`. -/
def infinity : Double := posInf

/-- The C++ operator `!=` on doubles: a NaN is unequal to everything, itself
included; otherwise two doubles are unequal when they are different values. -/
def ne (a b : Double) : Bool :=
  match a, b with
  | nan, _ => true
  | _, nan => true
  | a, b => decide (a ≠ b)

/-- A double is infinite when it is `+inf` or `-inf`. -/
def isInf : Double → Bool
  | posInf => true
  | negInf => true
  | _ => false

/-- A double is a NaN. -/
def isNaN : Double → Bool
  | nan => true
  | _ => false

end Double

/-- The conversion `CGAL::to_double` on a kernel whose number type is `double`. -/
def to_double (d : Double) : Double := d

/-- The type `Kernel::Point_2`: a pair of double coordinates. -/
structure Point_2 where
  x : Double
  y : Double
  deriving DecidableEq, Repr

/-- The type `CGAL::Polygon_2<Kernel>`: the vertex sequence. -/
abbrev Polygon_2 := List Point_2

/-- The type `CGAL::Polygon_with_holes_2<Kernel>`: an outer boundary and holes.  The
default-constructed value has an empty outer boundary and no holes. -/
structure Polygon_with_holes_2 where
  outer_boundary : Polygon_2 := []
  holes : List Polygon_2 := []
  deriving DecidableEq, Repr

/-- The method `Polygon_with_holes_2::is_unbounded`: the outer boundary is empty. -/
def Polygon_with_holes_2.is_unbounded (p : Polygon_with_holes_2) : Bool :=
  p.outer_boundary.isEmpty

/-- What `polygon.cpp` calls in the CGAL library.  `join` returns `some r`
when the C++ call returns `true` after storing `r` in its output argument, and
`none` when it returns `false` and leaves the output argument as it was. -/
structure CGAL where
  collinear : Point_2 → Point_2 → Point_2 → Bool
  is_simple : Polygon_2 → Bool
  intersection : Polygon_2 → Polygon_2 → List Polygon_with_holes_2
  difference : Polygon_2 → Polygon_2 → List Polygon_with_holes_2
  join : Polygon_with_holes_2 → Polygon_with_holes_2 → Option Polygon_with_holes_2

/-! ## Validation (`polygon.cpp` lines 53-87) -/

/-- Source `isValidPoint`: both coordinates compare unequal to `+infinity`. -/
def isValidPoint (point : Point_2) : Bool :=
  (to_double point.x).ne (to_double Double.infinity) &&
  (to_double point.y).ne (to_double Double.infinity)

/-- The vertex loop of `isValidPolygon`: leaves with `false` at the first
vertex that fails `isValidPoint`. -/
def verticesValid : List Point_2 → Bool
  | [] => true
  | v :: rest => if !isValidPoint v then false else verticesValid rest

/-- Text written to `std::cerr` by `isValidPolygon` for a short polygon. -/
def msgTooFewVertices : String :=
  "Error: Polygon must have at least three vertices. \n"

/-- Text written to `std::cerr` by `isValidPolygon` for a collinear start. -/
def msgCollinear : String :=
  "Error: First three vertices of the polygon are collinear. \n"

/-- Source `isValidPolygon`: the returned flag together with what the call
writes to `std::cerr`. -/
def isValidPolygon (K : CGAL) (polygon : Polygon_2) : Bool × List String :=
  if h : polygon.length < 3 then
    (false, [msgTooFewVertices])
  else if !verticesValid polygon then
    (false, [])
  else if K.collinear polygon[0] polygon[1] polygon[2] then
    (false, [msgCollinear])
  else
    (true, [])

/-- Source `isSimple`: the library's `Polygon_2::is_simple`. -/
def isSimple (K : CGAL) (polygon : Polygon_2) : Bool :=
  K.is_simple polygon

/-! ## Pairwise operations (`polygon.cpp` lines 146-165) -/

/-- What a call of `performOperation` produces: the returned vector and the
calls made to the library, each recorded as (function, `i`, `j`) for the call
on `inputPolygons[i]` and `inputPolygons[j]`. -/
structure OperationRun where
  results : List Polygon_with_holes_2 := []
  calls : List (String × Nat × Nat) := []
  deriving DecidableEq, Repr

/-- Body of the inner loop of `performOperation` for the pair `(i, j)`: a
fresh `result` list, the two `if` statements on `operationName`, then
`results.insert(results.end(), result.begin(), result.end())`. -/
def performOperation.body (K : CGAL) (inputPolygons : List Polygon_2)
    (operationName : String) (i j : Nat) (st : OperationRun) : OperationRun :=
  let result : List Polygon_with_holes_2 := []
  let calls := st.calls
  let (result, calls) :=
    if operationName == "intersection" then
      (result ++ K.intersection (inputPolygons.getD i []) (inputPolygons.getD j []),
        calls ++ [("intersection", i, j)])
    else (result, calls)
  let (result, calls) :=
    if operationName == "difference" then
      (result ++ K.difference (inputPolygons.getD i []) (inputPolygons.getD j []),
        calls ++ [("difference", i, j)])
    else (result, calls)
  { results := st.results ++ result, calls := calls }

/-- Inner loop `for (j = ...; j < inputPolygons.size(); ++j)`, entered at `j`. -/
def performOperation.inner (K : CGAL) (inputPolygons : List Polygon_2)
    (operationName : String) (i j : Nat) (st : OperationRun) : OperationRun :=
  if j < inputPolygons.length then
    performOperation.inner K inputPolygons operationName i (j + 1)
      (performOperation.body K inputPolygons operationName i j st)
  else st
termination_by inputPolygons.length - j

/-- Outer loop `for (i = ...; i < inputPolygons.size(); ++i)`, entered at `i`;
each round runs the inner loop from `j = i + 1`. -/
def performOperation.outer (K : CGAL) (inputPolygons : List Polygon_2)
    (operationName : String) (i : Nat) (st : OperationRun) : OperationRun :=
  if i < inputPolygons.length then
    performOperation.outer K inputPolygons operationName (i + 1)
      (performOperation.inner K inputPolygons operationName i (i + 1) st)
  else st
termination_by inputPolygons.length - i

/-- Source `performOperation`. -/
def performOperation (K : CGAL) (inputPolygons : List Polygon_2)
    (operationName : String) : OperationRun :=
  performOperation.outer K inputPolygons operationName 0 {}

/-! ## Union (`polygon.cpp` lines 167-191) -/

/-- The copy loop `for (vertexIt ...) target.outer_boundary().push_back(*vertexIt)`. -/
def pushVertices (target : Polygon_with_holes_2) : List Point_2 → Polygon_with_holes_2
  | [] => target
  | v :: rest =>
    pushVertices { target with outer_boundary := target.outer_boundary ++ [v] } rest

/-- The statement `CGAL::join(p1, p2, res)`: the value of `res` afterwards. -/
def joinInto (K : CGAL) (p1 p2 res : Polygon_with_holes_2) : Polygon_with_holes_2 :=
  match K.join p1 p2 with
  | some r => r
  | none => res

/-- The loop `for (i = ...; i < polygons.size(); ++i)` of `polygonUnion`,
entered at `i` with the running `result`. -/
def polygonUnion.loop (K : CGAL) (polygons : List Polygon_2) (i : Nat)
    (result : Polygon_with_holes_2) : Polygon_with_holes_2 :=
  if i < polygons.length then
    let current_polygon := pushVertices {} (polygons.getD i [])
    polygonUnion.loop K polygons (i + 1) (joinInto K result current_polygon result)
  else result
termination_by polygons.length - i

/-- Source `polygonUnion`. -/
def polygonUnion (K : CGAL) (polygons : List Polygon_2) : Polygon_with_holes_2 :=
  if polygons.isEmpty then
    {}
  else
    let result := pushVertices {} (polygons.getD 0 [])
    polygonUnion.loop K polygons 1 result

/-! ## Result files (`polygon.cpp` lines 112-144) -/

/-- What a call of `processResults` does outside `std::cout`: the file paths
handed to `printPolygon` (which saves the figure there), and the lines written
to `std::cerr`. -/
structure SinkRun where
  saved : List String := []
  cerr : List String := []
  deriving DecidableEq, Repr

/-- The `filePath` string that `processResults` builds for result `i`; no path
is built when `operationName` is neither of the two names. -/
def processResults.filePath (operationName : String) (i : Nat) : Option String :=
  if operationName == "intersection" then
    some (operationName ++ "Results" ++ "/intersection_" ++ toString i ++ ".png")
  else if operationName == "difference" then
    some (operationName ++ "Results" ++ "/difference_" ++ toString i ++ ".png")
  else none

/-- The loop of `processResults`, at index `i` with the results still to visit. -/
def processResults.loop (operationName : String) :
    List Polygon_with_holes_2 → Nat → SinkRun → SinkRun
  | [], _, st => st
  | result :: rest, i, st =>
    let st :=
      if operationName == "intersection" then
        let filePath := operationName ++ "Results" ++ "/intersection_" ++ toString i ++ ".png"
        if result.is_unbounded then st else { st with saved := st.saved ++ [filePath] }
      else if operationName == "difference" then
        let filePath := operationName ++ "Results" ++ "/difference_" ++ toString i ++ ".png"
        if result.is_unbounded then st else { st with saved := st.saved ++ [filePath] }
      else { st with cerr := st.cerr ++ ["Invalid operation code. Exiting.\n"] }
    processResults.loop operationName rest (i + 1) st

/-- Source `processResults`. -/
def processResults (results : List Polygon_with_holes_2) (operationName : String) : SinkRun :=
  processResults.loop operationName results 0 {}

/-- The directory part of a path: the characters before the first `/`. -/
def directoryOf (path : String) : String :=
  String.mk (path.data.takeWhile (fun c => c != '/'))

/-! ## The driver (`polygon.cpp` lines 193-266) -/

/-- The value of `EXIT_FAILURE` on the POSIX systems that provide the `mkdir`
used by `createDirectory`. -/
def EXIT_FAILURE : Nat := 1

/-- What a run of `main` does after the batch and the operation code have been
read: the exit status of the process, the lines written to `std::cerr`, the
paths passed to `createDirectory`, the directories that were created, the
value returned by `polygonUnion` or `performOperation` when it was invoked, and
the file paths handed to `printPolygon`. -/
structure Outcome where
  status : Nat
  cerr : List String := []
  mkdirCalls : List String := []
  created : List String := []
  unionResult : Option Polygon_with_holes_2 := none
  operationRun : Option OperationRun := none
  saved : List String := []
  deriving DecidableEq, Repr

/-- Line written by `main` when fewer than two polygons are non-empty. -/
def msgTwoPolygons : String :=
  "Error: At least two non-empty polygons are required for performing operation.\n"

/-- Line written by `main` when `isValidPolygon` fails on polygon `i`. -/
def msgInvalidPoints (i : Nat) : String :=
  "Error: Input polygon " ++ toString i ++ " has invalid points.\n"

/-- Line written by `main` when `isSimple` fails. -/
def msgNotSimple : String :=
  "Error: Input polygon is not simple (self-intersecting).\n"

/-- Line written by `createDirectory` when `mkdir` fails. -/
def msgMkdir (path : String) : String :=
  "Error: Unable to create directory " ++ path ++ "\n"

/-- The loop of `main` over `isValidPolygon`, at index `i` with the polygons
still to visit and the `std::cerr` lines so far.  The flag is `false` when the
loop leaves `main` with `return 1`. -/
def main.validLoop (K : CGAL) : List Polygon_2 → Nat → List String → Bool × List String
  | [], _, log => (true, log)
  | polygon :: rest, i, log =>
    let r := isValidPolygon K polygon
    if !r.1 then (false, log ++ r.2 ++ [msgInvalidPoints i])
    else main.validLoop K rest (i + 1) (log ++ r.2)

/-- The loop of `main` over `isSimple`. -/
def main.simpleLoop (K : CGAL) : List Polygon_2 → List String → Bool × List String
  | [], log => (true, log)
  | polygon :: rest, log =>
    if !isSimple K polygon then (false, log ++ [msgNotSimple])
    else main.simpleLoop K rest log

/-- The operation branches of `main` (lines 229-265), reached when validation
has passed, with the `std::cerr` lines written so far.  `mkdirOk path` tells
whether `mkdir(path)` succeeds in the file system the program runs in; when it
fails `createDirectory` ends the process with `exit(EXIT_FAILURE)`.  Falling
off the end of `main` is exit status 0. -/
def main.operate (K : CGAL) (mkdirOk : String → Bool) (inputPolygons : List Polygon_2)
    (operation : Int) (log : List String) : Outcome :=
  if operation = 1 then
    let folderName := "UnionResults"
    if !mkdirOk folderName then
      { status := EXIT_FAILURE, cerr := log ++ [msgMkdir folderName],
        mkdirCalls := [folderName] }
    else
      let filePath := folderName ++ "/union.png"
      let resultUnion := polygonUnion K inputPolygons
      { status := 0, cerr := log, mkdirCalls := [folderName], created := [folderName],
        unionResult := some resultUnion,
        saved := if resultUnion.is_unbounded then [] else [filePath] }
  else if operation = 2 then
    let folderName := "IntersectionResults"
    let operationName := "intersection"
    if !mkdirOk folderName then
      { status := EXIT_FAILURE, cerr := log ++ [msgMkdir folderName],
        mkdirCalls := [folderName] }
    else
      let intersections := performOperation K inputPolygons operationName
      let sink := processResults intersections.results operationName
      { status := 0, cerr := log ++ sink.cerr, mkdirCalls := [folderName],
        created := [folderName], operationRun := some intersections, saved := sink.saved }
  else if operation = 3 then
    let folderName := "DifferenceResults"
    let operationName := "difference"
    if !mkdirOk folderName then
      { status := EXIT_FAILURE, cerr := log ++ [msgMkdir folderName],
        mkdirCalls := [folderName] }
    else
      let differences := performOperation K inputPolygons operationName
      let sink := processResults differences.results operationName
      { status := 0, cerr := log ++ sink.cerr, mkdirCalls := [folderName],
        created := [folderName], operationRun := some differences, saved := sink.saved }
  else
    { status := 0, cerr := log ++ ["Invalid operation code. Exiting.\n"] }

/-- Source `main` from the point where `inputPolygons` and `operation` have
been read: the three validation steps, each leaving with `return 1`, then the
operation branches. -/
def main (K : CGAL) (mkdirOk : String → Bool) (inputPolygons : List Polygon_2)
    (operation : Int) : Outcome :=
  if inputPolygons.countP (fun polygon => !polygon.isEmpty) < 2 then
    { status := 1, cerr := [msgTwoPolygons] }
  else
    let v := main.validLoop K inputPolygons 0 []
    if !v.1 then { status := 1, cerr := v.2 }
    else
      let s := main.simpleLoop K inputPolygons v.2
      if !s.1 then { status := 1, cerr := s.2 }
      else main.operate K mkdirOk inputPolygons operation s.2

/-! ## The orders the specification describes -/

/-- The index pairs `(i, j)` with `i < j < n` in the order
`(0,1), (0,2), ..., (0,n-1), (1,2), ..., (n-2,n-1)`. -/
def indexPairs (n : Nat) : List (Nat × Nat) :=
  (List.range n).flatMap (fun i => (List.range' (i + 1) (n - (i + 1))).map (fun j => (i, j)))

/-- Lifting a polygon to a region: the same vertices as outer boundary, no holes. -/
def liftPolygon (polygon : Polygon_2) : Polygon_with_holes_2 :=
  { outer_boundary := polygon, holes := [] }

/-- The validation failures named by the specification. -/
inductive ValidationError where
  | TooFewVertices
  | InvalidCoordinate
  | DegenerateLeadingTriplet
  | NotSimple
  deriving DecidableEq, Repr

/-- The round of `performOperation` for one pair, as a step of a fold. -/
def performOperation.step (K : CGAL) (inputPolygons : List Polygon_2)
    (operationName : String) (st : OperationRun) (p : Nat × Nat) : OperationRun :=
  performOperation.body K inputPolygons operationName p.1 p.2 st

/-- The fold step of the union: `CGAL::join(result, current, result)` with the
next polygon lifted to a region. -/
def unionStep (K : CGAL) (result : Polygon_with_holes_2) (polygon : Polygon_2) :
    Polygon_with_holes_2 :=
  joinInto K result (liftPolygon polygon) result

/-- The first three collinear, for a polygon that has three vertices. -/
def leadingTripletCollinear (K : CGAL) : Polygon_2 → Bool
  | a :: b :: c :: _ => K.collinear a b c
  | _ => false

/-- The per-polygon validation as the specification words it: the four checks
in order, the first failing one named. -/
def specValidate (K : CGAL) (polygon : Polygon_2) : Option ValidationError :=
  if polygon.length < 3 then some .TooFewVertices
  else if polygon.any (fun v => !isValidPoint v) then some .InvalidCoordinate
  else if leadingTripletCollinear K polygon then some .DegenerateLeadingTriplet
  else if !K.is_simple polygon then some .NotSimple
  else none

/-- The first offending polygon in input order as the specification words it:
the lowest index whose polygon fails any of the four checks, with its failure.
The polygons still to visit start at index `i`. -/
def specFirstOffender (K : CGAL) : List Polygon_2 → Nat → Option (Nat × ValidationError)
  | [], _ => none
  | polygon :: rest, i =>
    match specValidate K polygon with
    | some e => some (i, e)
    | none => specFirstOffender K rest (i + 1)

/-- The lines the program writes to `std::cerr` when it reports failure `e` of
polygon `i`: the line of `isValidPolygon`, if it has one for `e`, followed by
the line of `main`. -/
def reportOf (i : Nat) : ValidationError → List String
  | .TooFewVertices => [msgTooFewVertices, msgInvalidPoints i]
  | .InvalidCoordinate => [msgInvalidPoints i]
  | .DegenerateLeadingTriplet => [msgCollinear, msgInvalidPoints i]
  | .NotSimple => [msgNotSimple]

/-- The batch fails validation: fewer than two polygons are non-empty, or some
polygon fails `isValidPolygon`, or some polygon fails `isSimple`. -/
def batchRejected (K : CGAL) (inputPolygons : List Polygon_2) : Prop :=
  inputPolygons.countP (fun polygon => !polygon.isEmpty) < 2 ∨
  (∃ polygon ∈ inputPolygons, (isValidPolygon K polygon).1 = false) ∨
  (∃ polygon ∈ inputPolygons, isSimple K polygon = false)

/-! ## A library instance for running the program on example batches -/

/-- The two coordinates of a point when both are finite. -/
def Point_2.coords? (p : Point_2) : Option (ℚ × ℚ) :=
  match p.x, p.y with
  | .finite a, .finite b => some (a, b)
  | _, _ => none

/-- The orientation determinant of three points. -/
def orientation (a b c : ℚ × ℚ) : ℚ :=
  (b.1 - a.1) * (c.2 - a.2) - (c.1 - a.1) * (b.2 - a.2)

/-- Exact collinearity of three points with finite coordinates. -/
def exactCollinear (a b c : Point_2) : Bool :=
  match a.coords?, b.coords?, c.coords? with
  | some a, some b, some c => decide (orientation a b c = 0)
  | _, _, _ => false

/-- The point `p` lies on the closed segment from `a` to `b`. -/
def onSegment (a b p : ℚ × ℚ) : Bool :=
  decide (orientation a b p = 0) &&
  decide (min a.1 b.1 ≤ p.1) && decide (p.1 ≤ max a.1 b.1) &&
  decide (min a.2 b.2 ≤ p.2) && decide (p.2 ≤ max a.2 b.2)

/-- The closed segments `a b` and `c d` have a point in common. -/
def segmentsMeet (a b c d : ℚ × ℚ) : Bool :=
  (decide (orientation c d a * orientation c d b < 0) &&
    decide (orientation a b c * orientation a b d < 0)) ||
  onSegment c d a || onSegment c d b || onSegment a b c || onSegment a b d

/-- The edges `k < l` of a polygon with `n` edges do not violate simplicity:
edges that follow each other share their common endpoint only, other edges are
disjoint. -/
def edgesCompatible (n : Nat) (edges : List ((ℚ × ℚ) × (ℚ × ℚ))) (k l : Nat) : Bool :=
  match edges[k]?, edges[l]? with
  | some (a, b), some (c, d) =>
    if l = k + 1 then !onSegment a b d && !onSegment c d a
    else if k = 0 ∧ l + 1 = n then !onSegment a b c && !onSegment c d b
    else !segmentsMeet a b c d
  | _, _ => true

/-- Simplicity of a polygon with finite coordinates by the scan over all pairs
of edges. -/
def scanSimple (polygon : Polygon_2) : Bool :=
  match polygon.mapM Point_2.coords? with
  | none => false
  | some vs =>
    let n := vs.length
    let edges := vs.zip (vs.rotate 1)
    decide (3 ≤ n) &&
    (List.range n).all (fun k => (List.range' (k + 1) (n - (k + 1))).all (fun l =>
      edgesCompatible n edges k l))

/-- The bounding box `(xmin, ymin, xmax, ymax)` of finitely many points. -/
def boundingBox : List (ℚ × ℚ) → Option (ℚ × ℚ × ℚ × ℚ)
  | [] => none
  | p :: rest =>
    match boundingBox rest with
    | none => some (p.1, p.2, p.1, p.2)
    | some (x0, y0, x1, y1) => some (min p.1 x0, min p.2 y0, max p.1 x1, max p.2 y1)

/-- The bounding box of a polygon with finite coordinates. -/
def Polygon_2.box? (polygon : Polygon_2) : Option (ℚ × ℚ × ℚ × ℚ) :=
  (polygon.mapM Point_2.coords?).bind boundingBox

/-- A point with the two given finite coordinates. -/
def pt (x y : ℚ) : Point_2 := { x := .finite x, y := .finite y }

/-- The overlap of the bounding boxes of two polygons, counterclockwise from
its lower left corner, when it has positive area.  For two axis-parallel
rectangles this is the rectangle common to both. -/
def boxIntersection (p q : Polygon_2) : List Polygon_with_holes_2 :=
  match p.box?, q.box? with
  | some (a0, b0, a1, b1), some (c0, d0, c1, d1) =>
    let x0 := max a0 c0
    let y0 := max b0 d0
    let x1 := min a1 c1
    let y1 := min b1 d1
    if x0 < x1 ∧ y0 < y1 then
      [{ outer_boundary := [pt x0 y0, pt x1 y0, pt x1 y1, pt x0 y1], holes := [] }]
    else []
  | _, _ => []

/-- The difference of two axis-parallel rectangles that share no area: the
first one. -/
def boxDifference (p q : Polygon_2) : List Polygon_with_holes_2 :=
  if (boxIntersection p q).isEmpty then [liftPolygon p] else []

/-- An instance of the library interface on which the example batches are run.
`collinear` and `is_simple` are exact on finite coordinates; `intersection` is
exact on axis-parallel rectangles; `difference` and `join` answer as the
library does on operands that share no area and are only used on such. -/
def exampleLibrary : CGAL where
  collinear := exactCollinear
  is_simple := scanSimple
  intersection := boxIntersection
  difference := boxDifference
  join := fun _ _ => none

/-- The square (0,0)-(10,0)-(10,10)-(0,10). -/
def squareA : Polygon_2 := [pt 0 0, pt 10 0, pt 10 10, pt 0 10]

/-- The square (5,5)-(15,5)-(15,15)-(5,15). -/
def squareB : Polygon_2 := [pt 5 5, pt 15 5, pt 15 15, pt 5 15]

/-- The square (20,20)-(30,20)-(30,30)-(20,30), away from `squareA`. -/
def squareFar : Polygon_2 := [pt 20 20, pt 30 20, pt 30 30, pt 20 30]

/-- The triangle (0,0)-(4,0)-(0,4). -/
def triangleA : Polygon_2 := [pt 0 0, pt 4 0, pt 0 4]

/-- The triangle (1,1)-(5,1)-(1,5). -/
def triangleB : Polygon_2 := [pt 1 1, pt 5 1, pt 1 5]

/-- A self-crossing quadrilateral (0,0)-(4,4)-(4,0)-(0,4): its first and third
edges cross at (2,2). -/
def bowtie : Polygon_2 := [pt 0 0, pt 4 4, pt 4 0, pt 0 4]

/-- A two-vertex polygon. -/
def twoPoints : Polygon_2 := [pt 0 0, pt 1 1]

/-- Three vertices on one line. -/
def flatTriangle : Polygon_2 := [pt 0 0, pt 1 1, pt 2 2]

/-- A triangle with an infinite coordinate. -/
def infiniteTriangle : Polygon_2 := [pt 0 0, { x := .posInf, y := .finite 0 }, pt 0 4]

/-! ## Theorems: validation of points and polygons -/

/-- What `isValidPoint` computes: neither coordinate is `+infinity`. -/
theorem isValidPoint_iff (p : Point_2) :
    isValidPoint p = true ↔ p.x ≠ Double.posInf ∧ p.y ≠ Double.posInf := by
  obtain ⟨x, y⟩ := p
  cases x <;> cases y <;> simp [isValidPoint, Double.ne, to_double, Double.infinity]

/-- C7, evaluated on the code: `isValidPoint` returns true for a point whose
x coordinate is negative infinity and for a point whose x coordinate is NaN, so
"true if and only if no coordinate is infinite or NaN" fails at both points. -/
theorem isValidPoint_accepts_negInf_and_nan :
    (isValidPoint { x := .negInf, y := .finite 0 } = true ∧ Double.isInf .negInf = true) ∧
    (isValidPoint { x := .nan, y := .finite 0 } = true ∧ Double.isNaN .nan = true) ∧
    ¬ (∀ p : Point_2, isValidPoint p = true ↔
        (p.x.isInf = false ∧ p.x.isNaN = false ∧ p.y.isInf = false ∧ p.y.isNaN = false)) := by
  refine ⟨⟨by decide, rfl⟩, ⟨by decide, rfl⟩, ?_⟩
  intro h
  have h1 := (h { x := .negInf, y := .finite 0 }).1 (by decide)
  simp [Double.isInf] at h1

/-- The vertex loop accepts exactly the lists all of whose points are valid. -/
theorem verticesValid_iff (vs : List Point_2) :
    verticesValid vs = true ↔ ∀ v ∈ vs, isValidPoint v = true := by
  induction vs with
  | nil => simp [verticesValid]
  | cons v rest ih =>
    cases hv : isValidPoint v <;> simp [verticesValid, hv, ih]

/-- The vertex loop rejects exactly the lists with an invalid point. -/
theorem verticesValid_eq_false_iff (vs : List Point_2) :
    verticesValid vs = false ↔ ∃ v ∈ vs, isValidPoint v = false := by
  rw [← Bool.not_eq_true, verticesValid_iff]
  simp

/-- C4: `isValidPolygon` checks vertex count, then coordinates, then the
leading triplet, and stops at the first failure.  With fewer than 3 vertices it
returns false with the too-few-vertices line (whatever the coordinates);
otherwise, with some invalid vertex, it returns false and writes nothing (even
when the first three vertices are collinear); otherwise, with a collinear
leading triplet, it returns false with the collinearity line; and it returns
true exactly when there are at least 3 vertices, all valid, and the first three
are not collinear. -/
theorem isValidPolygon_checks_in_order (K : CGAL) (polygon : Polygon_2) :
    (polygon.length < 3 → isValidPolygon K polygon = (false, [msgTooFewVertices])) ∧
    (3 ≤ polygon.length → (∃ v ∈ polygon, isValidPoint v = false) →
      isValidPolygon K polygon = (false, [])) ∧
    (∀ a b c rest, polygon = a :: b :: c :: rest →
      (∀ v ∈ polygon, isValidPoint v = true) → K.collinear a b c = true →
      isValidPolygon K polygon = (false, [msgCollinear])) ∧
    ((isValidPolygon K polygon).1 = true ↔
      ∃ a b c rest, polygon = a :: b :: c :: rest ∧
        (∀ v ∈ polygon, isValidPoint v = true) ∧ K.collinear a b c = false) := by
  refine ⟨?_, ?_, ?_, ?_⟩
  · intro h
    simp [isValidPolygon, h]
  · intro h hv
    have h3 : ¬ polygon.length < 3 := by omega
    have hf := (verticesValid_eq_false_iff polygon).2 hv
    simp [isValidPolygon, h3, hf]
  · intro a b c rest hp hv hc
    subst hp
    have hf := (verticesValid_iff _).2 hv
    have h3 : ¬ (rest.length + 1 + 1 + 1 < 3) := by omega
    simp [isValidPolygon, hf, hc, h3]
  · constructor
    · intro h
      match polygon, h with
      | [], h => simp [isValidPolygon] at h
      | [_], h => simp [isValidPolygon] at h
      | [_, _], h => simp [isValidPolygon] at h
      | a :: b :: c :: rest, h =>
        refine ⟨a, b, c, rest, rfl, ?_⟩
        have h3 : ¬ (rest.length + 1 + 1 + 1 < 3) := by omega
        cases hf : verticesValid (a :: b :: c :: rest)
        · simp [isValidPolygon, hf, h3] at h
        · cases hc : K.collinear a b c
          · exact ⟨(verticesValid_iff _).1 hf, rfl⟩
          · simp [isValidPolygon, hf, hc, h3] at h
    · rintro ⟨a, b, c, rest, rfl, hv, hc⟩
      have hf := (verticesValid_iff _).2 hv
      have h3 : ¬ (rest.length + 1 + 1 + 1 < 3) := by omega
      simp [isValidPolygon, hf, hc, h3]

/-- C4 on concrete polygons: a two-vertex polygon, a triangle with an infinite
coordinate whose vertices are otherwise fine, a flat triangle, and a proper
triangle. -/
theorem isValidPolygon_checks_in_order_witness :
    isValidPolygon exampleLibrary twoPoints = (false, [msgTooFewVertices]) ∧
    isValidPolygon exampleLibrary infiniteTriangle = (false, []) ∧
    isValidPolygon exampleLibrary flatTriangle = (false, [msgCollinear]) ∧
    (isValidPolygon exampleLibrary triangleA).1 = true :=
  ⟨(isValidPolygon_checks_in_order exampleLibrary twoPoints).1 (by decide),
   (isValidPolygon_checks_in_order exampleLibrary infiniteTriangle).2.1 (by decide)
     ⟨{ x := .posInf, y := .finite 0 }, by decide, by decide⟩,
   (isValidPolygon_checks_in_order exampleLibrary flatTriangle).2.2.1 _ _ _ _ rfl
     (by decide) (by decide!),
   (isValidPolygon_checks_in_order exampleLibrary triangleA).2.2.2.2
     ⟨_, _, _, _, rfl, by decide, by decide!⟩⟩

/-! ## Theorems: the pairwise operations -/

/-- The inner loop entered at `j` visits `j, j+1, ..., size-1` in this order. -/
theorem performOperation_inner_eq (K : CGAL) (ps : List Polygon_2) (op : String) (i : Nat) :
    ∀ (d j : Nat) (st : OperationRun), ps.length - j = d →
      performOperation.inner K ps op i j st =
        ((List.range' j d).map (fun j => (i, j))).foldl (performOperation.step K ps op) st := by
  intro d
  induction d with
  | zero =>
    intro j st h
    rw [performOperation.inner]
    have : ¬ j < ps.length := by omega
    simp [this]
  | succ d ih =>
    intro j st h
    rw [performOperation.inner]
    have hj : j < ps.length := by omega
    simp only [hj, if_true, List.range'_succ, List.map_cons, List.foldl_cons]
    rw [ih (j + 1) _ (by omega)]
    rfl

/-- The outer loop entered at `i` runs the inner loop for `i, i+1, ..., size-1`. -/
theorem performOperation_outer_eq (K : CGAL) (ps : List Polygon_2) (op : String) :
    ∀ (d i : Nat) (st : OperationRun), ps.length - i = d →
      performOperation.outer K ps op i st =
        ((List.range' i d).flatMap (fun i =>
          (List.range' (i + 1) (ps.length - (i + 1))).map (fun j => (i, j)))).foldl
          (performOperation.step K ps op) st := by
  intro d
  induction d with
  | zero =>
    intro i st h
    rw [performOperation.outer]
    have : ¬ i < ps.length := by omega
    simp [this]
  | succ d ih =>
    intro i st h
    rw [performOperation.outer]
    have hi : i < ps.length := by omega
    simp only [hi, if_true, List.range'_succ, List.flatMap_cons, List.foldl_append]
    rw [ih (i + 1) _ (by omega), performOperation_inner_eq K ps op i _ (i + 1) st rfl]

/-- The nested loops are one pass over `indexPairs`. -/
theorem performOperation_eq_foldl (K : CGAL) (ps : List Polygon_2) (op : String) :
    performOperation K ps op =
      (indexPairs ps.length).foldl (performOperation.step K ps op) {} := by
  unfold performOperation indexPairs
  rw [performOperation_outer_eq K ps op ps.length 0 _ (by omega), List.range_eq_range']

/-- A pass with the name "intersection" appends the library's intersection of
each pair and records one call per pair. -/
theorem foldl_step_intersection (K : CGAL) (ps : List Polygon_2) (l : List (Nat × Nat)) :
    ∀ st : OperationRun, l.foldl (performOperation.step K ps "intersection") st =
      { results := st.results ++
          l.flatMap (fun p => K.intersection (ps.getD p.1 []) (ps.getD p.2 [])),
        calls := st.calls ++ l.map (fun p => ("intersection", p.1, p.2)) } := by
  induction l with
  | nil => intro st; simp
  | cons p rest ih =>
    intro st
    have h1 : ("intersection" == "difference") = false := by decide
    simp [ih, performOperation.step, performOperation.body, h1]

/-- A pass with the name "difference" appends the library's difference of each
pair, first operand minus second, and records one call per pair. -/
theorem foldl_step_difference (K : CGAL) (ps : List Polygon_2) (l : List (Nat × Nat)) :
    ∀ st : OperationRun, l.foldl (performOperation.step K ps "difference") st =
      { results := st.results ++
          l.flatMap (fun p => K.difference (ps.getD p.1 []) (ps.getD p.2 [])),
        calls := st.calls ++ l.map (fun p => ("difference", p.1, p.2)) } := by
  induction l with
  | nil => intro st; simp
  | cons p rest ih =>
    intro st
    have h1 : ("difference" == "intersection") = false := by decide
    simp [ih, performOperation.step, performOperation.body, h1]

/-- Membership in `indexPairs`. -/
theorem mem_indexPairs (n i j : Nat) : (i, j) ∈ indexPairs n ↔ i < j ∧ j < n := by
  simp only [indexPairs, List.mem_flatMap, List.mem_range, List.mem_map, List.mem_range'_1,
    Prod.mk.injEq]
  constructor
  · rintro ⟨a, ha, b, ⟨hb1, hb2⟩, rfl, rfl⟩
    omega
  · rintro ⟨h1, h2⟩
    exact ⟨i, by omega, j, ⟨by omega, by omega⟩, rfl, rfl⟩

/-- The sum `(n-1) + (n-2) + ... + 0`. -/
theorem sum_range_reflect_eq (n : Nat) :
    ((List.range n).map (fun i => n - (i + 1))).sum * 2 = n * (n - 1) := by
  induction n with
  | zero => simp
  | succ n ih =>
    rw [List.range_succ_eq_map, List.map_cons, List.map_map, List.sum_cons]
    have h : ((fun i => n + 1 - (i + 1)) ∘ Nat.succ) = fun i => n - (i + 1) := by
      funext i
      simp only [Function.comp, Nat.succ_eq_add_one]
      omega
    rw [h, Nat.add_mul, ih]
    cases n with
    | zero => simp
    | succ m => simp only [Nat.add_sub_cancel, Nat.zero_add]; ring

/-- The number of pairs. -/
theorem length_indexPairs (n : Nat) : (indexPairs n).length = n * (n - 1) / 2 := by
  have h : (indexPairs n).length = ((List.range n).map (fun i => n - (i + 1))).sum := by
    unfold indexPairs
    rw [List.length_flatMap]
    congr 1
    apply List.map_congr_left
    intro i _
    simp
  rw [h, ← sum_range_reflect_eq n]
  simp

/-- The pairs are listed in increasing lexicographic order. -/
theorem pairwise_indexPairs (n : Nat) :
    (indexPairs n).Pairwise (fun p q => p.1 < q.1 ∨ (p.1 = q.1 ∧ p.2 < q.2)) := by
  unfold indexPairs
  rw [List.pairwise_flatMap]
  constructor
  · intro i _
    rw [List.pairwise_map]
    exact (List.pairwise_lt_range' (i + 1) (n - (i + 1))).imp (fun h => Or.inr ⟨rfl, h⟩)
  · refine (List.pairwise_lt_range n).imp ?_
    intro a b hab x hx y hy
    simp only [List.mem_map] at hx hy
    obtain ⟨_, _, rfl⟩ := hx
    obtain ⟨_, _, rfl⟩ := hy
    exact Or.inl hab

/-- C1: for the name "intersection" (resp. "difference") `performOperation`
returns the concatenation of the library's intersection (resp. difference, the
polygon of lower index minus the one of higher index) over the index pairs
`i < j` in the order (0,1), (0,2), ..., (0,N-1), (1,2), ..., (N-2,N-1), each
pair's regions in the order the library produced them; the library is called
once per listed pair and for no other pair; the list holds exactly the pairs
with `i < j < N`, in increasing lexicographic order, N*(N-1)/2 of them. -/
theorem performOperation_concatenates_pairs (K : CGAL) (inputPolygons : List Polygon_2) :
    performOperation K inputPolygons "intersection" =
      { results := (indexPairs inputPolygons.length).flatMap (fun p =>
          K.intersection (inputPolygons.getD p.1 []) (inputPolygons.getD p.2 [])),
        calls := (indexPairs inputPolygons.length).map (fun p => ("intersection", p.1, p.2)) } ∧
    performOperation K inputPolygons "difference" =
      { results := (indexPairs inputPolygons.length).flatMap (fun p =>
          K.difference (inputPolygons.getD p.1 []) (inputPolygons.getD p.2 [])),
        calls := (indexPairs inputPolygons.length).map (fun p => ("difference", p.1, p.2)) } ∧
    (∀ i j, (i, j) ∈ indexPairs inputPolygons.length ↔ i < j ∧ j < inputPolygons.length) ∧
    (indexPairs inputPolygons.length).Pairwise
      (fun p q => p.1 < q.1 ∨ (p.1 = q.1 ∧ p.2 < q.2)) ∧
    (indexPairs inputPolygons.length).length =
      inputPolygons.length * (inputPolygons.length - 1) / 2 := by
  refine ⟨?_, ?_, fun i j => mem_indexPairs _ i j, pairwise_indexPairs _, length_indexPairs _⟩
  · rw [performOperation_eq_foldl, foldl_step_intersection]
    simp
  · rw [performOperation_eq_foldl, foldl_step_difference]
    simp

/-! ## Theorems: the union fold -/

/-- The copy loop appends the vertices, in order, to the outer boundary. -/
theorem pushVertices_eq (vs : List Point_2) : ∀ target : Polygon_with_holes_2,
    pushVertices target vs =
      { outer_boundary := target.outer_boundary ++ vs, holes := target.holes } := by
  induction vs with
  | nil => intro target; simp [pushVertices]
  | cons v rest ih => intro target; simp [pushVertices, ih]

/-- Copying into a fresh region lifts the polygon. -/
theorem pushVertices_default (vs : List Point_2) : pushVertices {} vs = liftPolygon vs := by
  rw [pushVertices_eq]
  simp [liftPolygon]

/-- The loop of `polygonUnion` entered at `i` folds the polygons from index `i` on. -/
theorem polygonUnion_loop_eq (K : CGAL) (ps : List Polygon_2) :
    ∀ (d i : Nat) (result : Polygon_with_holes_2), ps.length - i = d →
      polygonUnion.loop K ps i result = (ps.drop i).foldl (unionStep K) result := by
  intro d
  induction d with
  | zero =>
    intro i result h
    rw [polygonUnion.loop]
    have h1 : ¬ i < ps.length := by omega
    have h2 : ps.drop i = [] := List.drop_eq_nil_of_le (by omega)
    simp [h1, h2]
  | succ d ih =>
    intro i result h
    rw [polygonUnion.loop]
    have hi : i < ps.length := by omega
    rw [List.drop_eq_getElem_cons hi]
    simp only [hi, if_true, List.foldl_cons]
    rw [ih (i + 1) _ (by omega), pushVertices_default, List.getD_eq_getElem _ _ hi]
    rfl

/-- On a non-empty list `polygonUnion` folds `unionStep` over the later
polygons, starting from the first polygon lifted. -/
theorem polygonUnion_cons (K : CGAL) (first : Polygon_2) (rest : List Polygon_2) :
    polygonUnion K (first :: rest) = rest.foldl (unionStep K) (liftPolygon first) := by
  have h := polygonUnion_loop_eq K (first :: rest) rest.length 1
    (pushVertices {} ((first :: rest).getD 0 [])) (by simp)
  simp only [polygonUnion, List.isEmpty_cons, Bool.false_eq_true, if_false]
  rw [h, pushVertices_default]
  rfl

/-- C2: on a non-empty list `polygonUnion` is the left-to-right fold that
starts from the first polygon lifted to a region (its vertices in the same
order as outer boundary, no holes) and, for each later polygon in input order,
calls the library's `join` on the accumulator and that polygon lifted without
holes: when `join` answers with a region, that region replaces the accumulator,
and when it answers that there is no overlap the accumulator stays as it is.
The final accumulator is the result.  On the empty list the result is the
default region (empty outer boundary, no holes), which is unbounded. -/
theorem polygonUnion_is_left_fold (K : CGAL) :
    (polygonUnion K [] = { outer_boundary := [], holes := [] } ∧
      (polygonUnion K []).is_unbounded = true) ∧
    ∀ (first : Polygon_2) (rest : List Polygon_2),
      polygonUnion K (first :: rest) =
        rest.foldl
          (fun acc polygon =>
            match K.join acc { outer_boundary := polygon, holes := [] } with
            | some merged => merged
            | none => acc)
          { outer_boundary := first, holes := [] } := by
  refine ⟨⟨rfl, rfl⟩, ?_⟩
  intro first rest
  rw [polygonUnion_cons]
  have hstep : unionStep K = fun acc polygon =>
      match K.join acc { outer_boundary := polygon, holes := [] } with
      | some merged => merged
      | none => acc := by
    funext acc polygon
    simp only [unionStep, joinInto, liftPolygon]
  rw [hstep]
  rfl

/-- C9: when every `join` of the first polygon's region with a later polygon
reports no overlap (so the accumulator is never replaced), `polygonUnion`
returns the region whose outer boundary is the first polygon's vertex sequence
and which has no holes. -/
theorem polygonUnion_keeps_first_without_overlap (K : CGAL) (first : Polygon_2)
    (rest : List Polygon_2)
    (h : ∀ polygon ∈ rest, K.join (liftPolygon first) (liftPolygon polygon) = none) :
    polygonUnion K (first :: rest) = { outer_boundary := first, holes := [] } := by
  rw [polygonUnion_cons]
  induction rest with
  | nil => rfl
  | cons q rest ih =>
    have hq : K.join (liftPolygon first) (liftPolygon q) = none := h q (by simp)
    rw [List.foldl_cons]
    simp only [unionStep, joinInto, hq]
    exact ih (fun p hp => h p (List.mem_cons_of_mem _ hp))

/-- C9 on two squares that are far apart. -/
theorem polygonUnion_keeps_first_without_overlap_witness :
    (∀ polygon ∈ [squareFar],
      exampleLibrary.join (liftPolygon squareA) (liftPolygon polygon) = none) ∧
    polygonUnion exampleLibrary [squareA, squareFar] =
      { outer_boundary := squareA, holes := [] } :=
  ⟨fun _ _ => rfl,
   polygonUnion_keeps_first_without_overlap exampleLibrary squareA [squareFar] (fun _ _ => rfl)⟩

/-- On a batch of two polygons `performOperation` with the name "intersection"
makes one library call, on the pair (0,1), and returns what that call produced. -/
theorem performOperation_two_polygons (K : CGAL) (first second : Polygon_2) :
    performOperation K [first, second] "intersection" =
      { results := K.intersection first second, calls := [("intersection", 0, 1)] } := by
  have hp : indexPairs 2 = [(0, 1)] := by decide
  rw [performOperation_eq_foldl, foldl_step_intersection]
  simp [hp]

/-! ## Theorems: the driver -/

/-- A polygon that passes `isValidPolygon` makes it write nothing. -/
theorem isValidPolygon_true_silent (K : CGAL) (p : Polygon_2)
    (h : (isValidPolygon K p).1 = true) : (isValidPolygon K p).2 = [] := by
  unfold isValidPolygon at h ⊢
  split_ifs at h ⊢
  simp_all

/-- The loop over `isValidPolygon` passes exactly when every polygon passes. -/
theorem validLoop_true_iff (K : CGAL) (ps : List Polygon_2) :
    ∀ (i : Nat) (log : List String),
      (main.validLoop K ps i log).1 = true ↔ ∀ p ∈ ps, (isValidPolygon K p).1 = true := by
  induction ps with
  | nil => intro i log; simp [main.validLoop]
  | cons p rest ih =>
    intro i log
    cases hp : (isValidPolygon K p).1 <;> simp [main.validLoop, hp, ih]

/-- A passing loop over `isValidPolygon` writes nothing. -/
theorem validLoop_of_all (K : CGAL) (ps : List Polygon_2) :
    ∀ (i : Nat) (log : List String), (∀ p ∈ ps, (isValidPolygon K p).1 = true) →
      main.validLoop K ps i log = (true, log) := by
  induction ps with
  | nil => intro i log _; simp [main.validLoop]
  | cons p rest ih =>
    intro i log h
    have hp : (isValidPolygon K p).1 = true := h p (by simp)
    have hs := isValidPolygon_true_silent K p hp
    simp [main.validLoop, hp, hs, ih (i + 1) log (fun q hq => h q (List.mem_cons_of_mem _ hq))]

/-- A failing loop over `isValidPolygon` stops at the lowest failing index `k`
and writes that polygon's line followed by the line naming its index. -/
theorem validLoop_of_first (K : CGAL) (ps : List Polygon_2) :
    ∀ (i : Nat) (log : List String) (k : Nat), k < ps.length →
      (∀ j < k, (isValidPolygon K (ps.getD j [])).1 = true) →
      (isValidPolygon K (ps.getD k [])).1 = false →
      main.validLoop K ps i log =
        (false, log ++ (isValidPolygon K (ps.getD k [])).2 ++ [msgInvalidPoints (i + k)]) := by
  induction ps with
  | nil => intro i log k hk; simp at hk
  | cons p rest ih =>
    intro i log k hk hbefore hfail
    cases k with
    | zero =>
      simp only [List.getD_cons_zero] at hfail
      simp [main.validLoop, hfail]
    | succ k =>
      have hp : (isValidPolygon K p).1 = true := by simpa using hbefore 0 (by omega)
      have hs := isValidPolygon_true_silent K p hp
      simp only [List.getD_cons_succ] at hfail ⊢
      have h := ih (i + 1) log k (by simpa using hk)
        (fun j hj => by simpa using hbefore (j + 1) (by omega)) hfail
      simp only [main.validLoop, hp, hs, List.append_nil, Bool.not_true, Bool.false_eq_true,
        if_false]
      rw [h, Nat.add_assoc, Nat.add_comm 1 k]

/-- The loop over `isSimple` passes exactly when every polygon is simple. -/
theorem simpleLoop_true_iff (K : CGAL) (ps : List Polygon_2) (log : List String) :
    (main.simpleLoop K ps log).1 = true ↔ ∀ p ∈ ps, isSimple K p = true := by
  induction ps with
  | nil => simp [main.simpleLoop]
  | cons p rest ih =>
    cases hp : isSimple K p <;> simp [main.simpleLoop, hp, ih]

/-- The loop over `isSimple` writes its one line exactly when it fails. -/
theorem simpleLoop_snd (K : CGAL) (ps : List Polygon_2) (log : List String) :
    (main.simpleLoop K ps log).2 =
      if (main.simpleLoop K ps log).1 then log else log ++ [msgNotSimple] := by
  induction ps with
  | nil => simp [main.simpleLoop]
  | cons p rest ih =>
    cases hp : isSimple K p <;> simp [main.simpleLoop, hp, ih]

/-- A batch with fewer than two non-empty polygons ends `main` at once. -/
theorem main_of_few (K : CGAL) (mkdirOk : String → Bool) (ps : List Polygon_2) (op : Int)
    (h : ps.countP (fun polygon => !polygon.isEmpty) < 2) :
    main K mkdirOk ps op = { status := 1, cerr := [msgTwoPolygons] } := by
  simp [main, h]

/-- A batch with a polygon failing `isValidPolygon` ends `main` in the first
loop, with what that loop wrote. -/
theorem main_of_invalid (K : CGAL) (mkdirOk : String → Bool) (ps : List Polygon_2) (op : Int)
    (h : ¬ ps.countP (fun polygon => !polygon.isEmpty) < 2)
    (hv : (main.validLoop K ps 0 []).1 = false) :
    main K mkdirOk ps op = { status := 1, cerr := (main.validLoop K ps 0 []).2 } := by
  simp [main, h, hv]

/-- A batch whose polygons all pass `isValidPolygon` but are not all simple
ends `main` in the second loop with the one line of that loop. -/
theorem main_of_notSimple (K : CGAL) (mkdirOk : String → Bool) (ps : List Polygon_2)
    (op : Int) (h : ¬ ps.countP (fun polygon => !polygon.isEmpty) < 2)
    (hv : ∀ p ∈ ps, (isValidPolygon K p).1 = true)
    (hs : ∃ p ∈ ps, isSimple K p = false) :
    main K mkdirOk ps op = { status := 1, cerr := [msgNotSimple] } := by
  have h1 := validLoop_of_all K ps 0 [] hv
  have h2 : (main.simpleLoop K ps []).1 = false := by
    rw [← Bool.not_eq_true, simpleLoop_true_iff]
    simpa using hs
  have h3 := simpleLoop_snd K ps []
  rw [h2] at h3
  simp [main, h, h1, h2, h3]

/-- A batch that passes validation reaches the operation branches with nothing
written to `std::cerr`. -/
theorem main_of_accepted (K : CGAL) (mkdirOk : String → Bool) (ps : List Polygon_2)
    (op : Int) (h : ¬ batchRejected K ps) :
    main K mkdirOk ps op = main.operate K mkdirOk ps op [] := by
  simp only [batchRejected, not_or, not_exists, not_and, Bool.not_eq_false] at h
  obtain ⟨h0, hv, hs⟩ := h
  have h1 := validLoop_of_all K ps 0 [] hv
  have h2 : (main.simpleLoop K ps []).1 = true := (simpleLoop_true_iff K ps []).2 hs
  have h3 := simpleLoop_snd K ps []
  rw [h2] at h3
  simp [main, h0, h1, h2, h3]

/-- A rejected batch ends `main` with status 1 and nothing else done. -/
theorem main_of_rejected (K : CGAL) (mkdirOk : String → Bool) (ps : List Polygon_2)
    (op : Int) (h : batchRejected K ps) :
    ∃ log, main K mkdirOk ps op = { status := 1, cerr := log } := by
  by_cases h0 : ps.countP (fun polygon => !polygon.isEmpty) < 2
  · exact ⟨_, main_of_few K mkdirOk ps op h0⟩
  · by_cases hv : ∀ p ∈ ps, (isValidPolygon K p).1 = true
    · have hs : ∃ p ∈ ps, isSimple K p = false := by
        rcases h with h | ⟨p, hp, hf⟩ | h
        · exact absurd h h0
        · rw [hv p hp] at hf; cases hf
        · exact h
      exact ⟨_, main_of_notSimple K mkdirOk ps op h0 hv hs⟩
    · have hf : (main.validLoop K ps 0 []).1 = false := by
        rw [← Bool.not_eq_true, validLoop_true_iff]
        exact hv
      exact ⟨_, main_of_invalid K mkdirOk ps op h0 hf⟩

/-- The operation branches either attempt to create a directory or end with
status 0. -/
theorem operate_cases (K : CGAL) (mkdirOk : String → Bool) (ps : List Polygon_2) (op : Int)
    (log : List String) :
    (∃ folder, (main.operate K mkdirOk ps op log).mkdirCalls = [folder]) ∨
    ((main.operate K mkdirOk ps op log).status = 0 ∧
      (main.operate K mkdirOk ps op log).cerr = log ++ ["Invalid operation code. Exiting.\n"]) := by
  unfold main.operate
  by_cases h1 : op = 1
  · left
    cases hm : mkdirOk "UnionResults" <;> simp [h1, hm]
  · by_cases h2 : op = 2
    · left
      cases hm : mkdirOk "IntersectionResults" <;> simp [h1, h2, hm]
    · by_cases h3 : op = 3
      · left
        cases hm : mkdirOk "DifferenceResults" <;> simp [h1, h2, h3, hm]
      · right
        simp [h1, h2, h3]

/-- C3 as stated fails: on a batch of two proper triangles, which passes all
three validation steps, with operation code 2 in a file system where the result
directory cannot be created, the run ends with status 1, no directory created
and neither `polygonUnion` nor `performOperation` invoked. -/
theorem main_status_one_on_accepted_batch :
    ((main exampleLibrary (fun _ => false) [triangleA, triangleB] 2).status = 1 ∧
      (main exampleLibrary (fun _ => false) [triangleA, triangleB] 2).created = [] ∧
      (main exampleLibrary (fun _ => false) [triangleA, triangleB] 2).unionResult = none ∧
      (main exampleLibrary (fun _ => false) [triangleA, triangleB] 2).operationRun = none) ∧
    ¬ batchRejected exampleLibrary [triangleA, triangleB] := by
  unfold batchRejected
  decide!

/-- C3, amended: `main` ends with status 1 before any attempt to create a
result directory and without invoking `polygonUnion` or `performOperation` if
and only if fewer than two input polygons are non-empty, or some polygon fails
`isValidPolygon`, or some polygon fails `isSimple`.  In that case no directory
is created and nothing is saved; in every other case `main` goes on to the
operation branches, where it either calls `createDirectory` or ends with
status 0. -/
theorem main_rejects_iff (K : CGAL) (mkdirOk : String → Bool) (inputPolygons : List Polygon_2)
    (operation : Int) :
    (((main K mkdirOk inputPolygons operation).status = 1 ∧
        (main K mkdirOk inputPolygons operation).mkdirCalls = [] ∧
        (main K mkdirOk inputPolygons operation).unionResult = none ∧
        (main K mkdirOk inputPolygons operation).operationRun = none) ↔
      batchRejected K inputPolygons) ∧
    (batchRejected K inputPolygons →
      (main K mkdirOk inputPolygons operation).created = [] ∧
      (main K mkdirOk inputPolygons operation).saved = []) ∧
    (¬ batchRejected K inputPolygons →
      (∃ folder, (main K mkdirOk inputPolygons operation).mkdirCalls = [folder]) ∨
      (main K mkdirOk inputPolygons operation).status = 0) := by
  refine ⟨⟨?_, ?_⟩, ?_, ?_⟩
  · rintro ⟨hs, hm, _, _⟩
    by_contra hr
    rw [main_of_accepted K mkdirOk inputPolygons operation hr] at hs hm
    rcases operate_cases K mkdirOk inputPolygons operation [] with ⟨folder, hf⟩ | ⟨h0, _⟩
    · rw [hm] at hf
      cases hf
    · rw [hs] at h0
      cases h0
  · intro hr
    obtain ⟨log, h⟩ := main_of_rejected K mkdirOk inputPolygons operation hr
    simp [h]
  · intro hr
    obtain ⟨log, h⟩ := main_of_rejected K mkdirOk inputPolygons operation hr
    simp [h]
  · intro hr
    rw [main_of_accepted K mkdirOk inputPolygons operation hr]
    rcases operate_cases K mkdirOk inputPolygons operation [] with h | ⟨h0, _⟩
    · exact Or.inl h
    · exact Or.inr h0

/-- C3, amended, on a batch whose first polygon crosses itself. -/
theorem main_rejects_iff_witness :
    batchRejected exampleLibrary [bowtie, triangleA] ∧
    (main exampleLibrary (fun _ => true) [bowtie, triangleA] 2).status = 1 ∧
    (main exampleLibrary (fun _ => true) [bowtie, triangleA] 2).mkdirCalls = [] ∧
    (main exampleLibrary (fun _ => true) [bowtie, triangleA] 2).unionResult = none ∧
    (main exampleLibrary (fun _ => true) [bowtie, triangleA] 2).operationRun = none :=
  ⟨by unfold batchRejected; decide!,
   (main_rejects_iff exampleLibrary (fun _ => true) [bowtie, triangleA] 2).1.2
     (by unfold batchRejected; decide!)⟩

/-- A batch that passes validation with an operation code other than 1, 2 and
3 makes `main` write its line and end with status 0, nothing else done. -/
theorem main_of_unsupported (K : CGAL) (mkdirOk : String → Bool) (ps : List Polygon_2)
    (op : Int) (h : ¬ batchRejected K ps) (h1 : op ≠ 1) (h2 : op ≠ 2) (h3 : op ≠ 3) :
    main K mkdirOk ps op = { status := 0, cerr := ["Invalid operation code. Exiting.\n"] } := by
  rw [main_of_accepted K mkdirOk ps op h]
  simp [main.operate, h1, h2, h3]

/-- C6, evaluated on the code: on a batch of two proper triangles, which
passes validation, with operation code 4, `main` performs no computation,
writes "Invalid operation code. Exiting." to `std::cerr` and ends with status
0, while a validation error on the same code ends with status 1. -/
theorem main_unsupported_operation_status_zero :
    ¬ batchRejected exampleLibrary [triangleA, triangleB] ∧
    main exampleLibrary (fun _ => true) [triangleA, triangleB] 4 =
      { status := 0, cerr := ["Invalid operation code. Exiting.\n"] } ∧
    (main exampleLibrary (fun _ => true) [triangleA, twoPoints] 4).status = 1 := by
  unfold batchRejected
  decide!

/-- The vertex loop in terms of `List.any`. -/
theorem any_invalid_eq (vs : List Point_2) :
    vs.any (fun v => !isValidPoint v) = !verticesValid vs := by
  induction vs with
  | nil => simp [verticesValid]
  | cons v rest ih => cases hv : isValidPoint v <;> simp [verticesValid, hv, ih]

/-- The first three checks of the specification are those of `isValidPolygon`,
in the same order, and the lines written are those of `reportOf`. -/
theorem isValidPolygon_of_spec (K : CGAL) (p : Polygon_2) (e : ValidationError)
    (h : specValidate K p = some e) (hne : e ≠ .NotSimple) (i : Nat) :
    (isValidPolygon K p).1 = false ∧
      (isValidPolygon K p).2 ++ [msgInvalidPoints i] = reportOf i e := by
  rcases p with _ | ⟨a, _ | ⟨b, _ | ⟨c, rest⟩⟩⟩
  · simp [specValidate] at h; subst h; simp [isValidPolygon, reportOf]
  · simp [specValidate] at h; subst h; simp [isValidPolygon, reportOf]
  · simp [specValidate] at h; subst h; simp [isValidPolygon, reportOf]
  · have h3 : ¬ (rest.length + 1 + 1 + 1 < 3) := by omega
    have hany := any_invalid_eq (a :: b :: c :: rest)
    unfold specValidate at h
    rw [hany] at h
    cases hv : verticesValid (a :: b :: c :: rest) <;>
      cases hc : K.collinear a b c <;>
      cases hs : K.is_simple (a :: b :: c :: rest) <;>
      simp [hv, hc, hs, h3, leadingTripletCollinear] at h <;>
      subst h <;>
      simp [isValidPolygon, hv, hc, h3, reportOf] at hne ⊢

/-- A polygon that the specification's validation passes, or faults only for
not being simple, passes `isValidPolygon`. -/
theorem isValidPolygon_true_of_spec (K : CGAL) (p : Polygon_2)
    (h : specValidate K p = none ∨ specValidate K p = some .NotSimple) :
    (isValidPolygon K p).1 = true := by
  rcases p with _ | ⟨a, _ | ⟨b, _ | ⟨c, rest⟩⟩⟩
  · simp [specValidate] at h
  · simp [specValidate] at h
  · simp [specValidate] at h
  · have h3 : ¬ (rest.length + 1 + 1 + 1 < 3) := by omega
    have hany := any_invalid_eq (a :: b :: c :: rest)
    unfold specValidate at h
    rw [hany] at h
    cases hv : verticesValid (a :: b :: c :: rest) <;>
      cases hc : K.collinear a b c <;>
      simp [hv, hc, h3, leadingTripletCollinear] at h
    simp [isValidPolygon, hv, hc, h3]

/-- A polygon that the specification's validation faults for not being simple
fails `isSimple`. -/
theorem isSimple_false_of_spec (K : CGAL) (p : Polygon_2)
    (h : specValidate K p = some .NotSimple) : isSimple K p = false := by
  unfold specValidate at h
  unfold isSimple
  split_ifs at h with h1 h2 h3 h4
  all_goals first | (simpa using h4) | cases h

/-- C5 as stated fails: in the batch of a self-crossing quadrilateral followed
by a two-vertex polygon, both non-empty, the first offending polygon in input
order is polygon 0 (not simple), but `main` reports the too-few-vertices
failure of polygon 1. -/
theorem main_reports_later_polygon :
    2 ≤ [bowtie, twoPoints].countP (fun polygon => !polygon.isEmpty) ∧
    specFirstOffender exampleLibrary [bowtie, twoPoints] 0 = some (0, .NotSimple) ∧
    (main exampleLibrary (fun _ => true) [bowtie, twoPoints] 2).cerr =
      reportOf 1 .TooFewVertices ∧
    (main exampleLibrary (fun _ => true) [bowtie, twoPoints] 2).cerr ≠
      reportOf 0 .NotSimple := by
  decide!

/-- C5, amended: in a batch with at least two non-empty polygons, when some
polygon fails one of the checks of `isValidPolygon` (too few vertices, invalid
coordinate, collinear leading triplet), `main` ends with status 1 and reports
the failure of the lowest-index such polygon, whether or not an earlier polygon
is not simple; when no polygon fails those checks and some polygon is not
simple, `main` ends with status 1 and reports the not-simple failure. -/
theorem main_reports_first_point_failure (K : CGAL) (mkdirOk : String → Bool)
    (inputPolygons : List Polygon_2) (operation : Int)
    (h2 : 2 ≤ inputPolygons.countP (fun polygon => !polygon.isEmpty)) :
    (∀ i e, i < inputPolygons.length →
      specValidate K (inputPolygons.getD i []) = some e → e ≠ .NotSimple →
      (∀ k < i, specValidate K (inputPolygons.getD k []) = none ∨
        specValidate K (inputPolygons.getD k []) = some .NotSimple) →
      (main K mkdirOk inputPolygons operation).status = 1 ∧
      (main K mkdirOk inputPolygons operation).cerr = reportOf i e) ∧
    ((∀ p ∈ inputPolygons, specValidate K p = none ∨ specValidate K p = some .NotSimple) →
      ∀ i, i < inputPolygons.length →
      specValidate K (inputPolygons.getD i []) = some .NotSimple →
      (main K mkdirOk inputPolygons operation).status = 1 ∧
      (main K mkdirOk inputPolygons operation).cerr = reportOf i .NotSimple) := by
  have h0 : ¬ inputPolygons.countP (fun polygon => !polygon.isEmpty) < 2 := by omega
  constructor
  · intro i e hi he hne hbefore
    obtain ⟨hf, hr⟩ := isValidPolygon_of_spec K _ e he hne i
    have hl := validLoop_of_first K inputPolygons 0 [] i hi
      (fun k hk => isValidPolygon_true_of_spec K _ (hbefore k hk)) hf
    have hv : (main.validLoop K inputPolygons 0 []).1 = false := by rw [hl]
    rw [main_of_invalid K mkdirOk inputPolygons operation h0 hv, hl]
    simpa using hr
  · intro hall i hi he
    have hv : ∀ p ∈ inputPolygons, (isValidPolygon K p).1 = true :=
      fun p hp => isValidPolygon_true_of_spec K p (hall p hp)
    have hs : ∃ p ∈ inputPolygons, isSimple K p = false :=
      ⟨inputPolygons.getD i [], by
        rw [List.getD_eq_getElem _ _ hi]
        exact List.getElem_mem hi, isSimple_false_of_spec K _ he⟩
    rw [main_of_notSimple K mkdirOk inputPolygons operation h0 hv hs]
    simp [reportOf]

/-- C5, amended, on the batch of a self-crossing quadrilateral followed by a
two-vertex polygon: the report is that of polygon 1. -/
theorem main_reports_first_point_failure_witness :
    2 ≤ [bowtie, twoPoints].countP (fun polygon => !polygon.isEmpty) ∧
    (main exampleLibrary (fun _ => true) [bowtie, twoPoints] 2).status = 1 ∧
    (main exampleLibrary (fun _ => true) [bowtie, twoPoints] 2).cerr =
      reportOf 1 .TooFewVertices :=
  ⟨by decide,
   (main_reports_first_point_failure exampleLibrary (fun _ => true) [bowtie, twoPoints] 2
     (by decide)).1 1 .TooFewVertices (by decide) (by decide!) (by decide) (by decide!)⟩

/-! ## Theorems: result files -/

/-- Taking while a test holds stops at the first element that fails it. -/
theorem takeWhile_append_stop {α : Type} (p : α → Bool) (l r : List α) (c : α)
    (hl : ∀ x ∈ l, p x = true) (hc : p c = false) :
    (l ++ c :: r).takeWhile p = l := by
  induction l with
  | nil => simp [List.takeWhile, hc]
  | cons a l ih =>
    have ha : p a = true := hl a (by simp)
    simp only [List.cons_append, List.takeWhile_cons, ha, if_true]
    rw [ih (fun x hx => hl x (List.mem_cons_of_mem _ hx))]

/-- The directory part of `d/rest` is `d` when `d` has no slash. -/
theorem directoryOf_append (d rest : String) (hd : ∀ c ∈ d.data, (c != '/') = true) :
    directoryOf (d ++ "/" ++ rest) = d := by
  unfold directoryOf
  have h : (d ++ "/" ++ rest).data = d.data ++ '/' :: rest.data := by
    simp [String.data_append]
  rw [h, takeWhile_append_stop _ _ _ _ hd (by decide)]

/-- The paths that `processResults` hands to `printPolygon` are the paths of
`processResults.filePath` for the results that are not unbounded, by index. -/
theorem processResults_loop_saved (op : String) (results : List Polygon_with_holes_2) :
    ∀ (i : Nat) (st : SinkRun),
      (processResults.loop op results i st).saved =
        st.saved ++ (results.enumFrom i).filterMap (fun kr =>
          if kr.2.is_unbounded then none else processResults.filePath op kr.1) := by
  induction results with
  | nil => intro i st; simp [processResults.loop]
  | cons r rest ih =>
    intro i st
    rw [processResults.loop, ih]
    cases h1 : (op == "intersection") <;> cases h2 : (op == "difference") <;>
      cases h3 : r.is_unbounded <;>
      simp [processResults.filePath, h1, h2, h3, List.enumFrom]

/-- C10, evaluated on the code: for every result index the path that
`processResults` builds has the directory part "intersectionResults" (resp.
"differenceResults"), which differs in its first letter from the directory
"IntersectionResults" (resp. "DifferenceResults") that `main` creates; on the
batch of the two overlapping squares with operation code 2 the figure is saved
to "intersectionResults/intersection_0.png" while the only directory created is
"IntersectionResults". -/
theorem result_path_outside_created_directory (K : CGAL) (inputPolygons : List Polygon_2)
    (log : List String) (i : Nat) :
    ((main.operate K (fun _ => true) inputPolygons 2 log).created = ["IntersectionResults"] ∧
      processResults.filePath "intersection" i =
        some ("intersectionResults/intersection_" ++ toString i ++ ".png") ∧
      directoryOf ("intersectionResults/intersection_" ++ toString i ++ ".png") =
        "intersectionResults" ∧
      "intersectionResults" ≠ "IntersectionResults") ∧
    ((main.operate K (fun _ => true) inputPolygons 3 log).created = ["DifferenceResults"] ∧
      processResults.filePath "difference" i =
        some ("differenceResults/difference_" ++ toString i ++ ".png") ∧
      directoryOf ("differenceResults/difference_" ++ toString i ++ ".png") =
        "differenceResults" ∧
      "differenceResults" ≠ "DifferenceResults") ∧
    ((main exampleLibrary (fun _ => true) [squareA, squareB] 2).created =
        ["IntersectionResults"] ∧
      (main exampleLibrary (fun _ => true) [squareA, squareB] 2).saved =
        ["intersectionResults/intersection_0.png"]) := by
  have hi : "intersectionResults/intersection_" =
      "intersectionResults" ++ "/" ++ "intersection_" := by decide
  have hd : "differenceResults/difference_" =
      "differenceResults" ++ "/" ++ "difference_" := by decide
  refine ⟨⟨by simp [main.operate], by simp [processResults.filePath], ?_, by decide⟩,
    ⟨by simp [main.operate], by simp [processResults.filePath], ?_, by decide⟩,
    by decide!, by decide!⟩
  · rw [hi, String.append_assoc, String.append_assoc]
    exact directoryOf_append _ _ (by decide)
  · rw [hd, String.append_assoc, String.append_assoc]
    exact directoryOf_append _ _ (by decide)

end PolygonOperations
